import Mathlib

/-!
# Verification of the rss_everyday pipeline (src/main.go)

Shallow embedding of the parts of `main.go` that the claims are about:

* the timestamp priority fallback `getDatetime`,
* the per-subscription fetch-and-filter `GetPostInfo` with its hour-truncated
  time window (lines 127-151),
* the delivery stage `PushPost` with its lazy client initialization, per-item
  counter, rate-limit pacing and end-of-run heartbeat (lines 169-217).

Modelling conventions:

* A Go `time.Time` is modelled as `GoTime`: its Unix seconds (`Int`) and its
  nanosecond component (`Nat`).  `time.Time.IsZero` holds exactly at the Go
  zero instant (January 1, year 1 UTC), whose Unix value is `-62135596800`.
  The code runs every calendar computation in UTC (`time.Now().UTC()` and
  `now.Location()`), where truncating minutes/seconds/nanoseconds with
  `time.Date(Y, M, D, H, 0, 0, 0, loc)` is exactly flooring the Unix value to
  a multiple of 3600.
* `time.Now()` and the `-startby` flag are parameters (`now`, `startBy`).
  `time.Duration` is an `int64` count of nanoseconds, so the multiplication
  `time.Duration(*StartBy) * time.Hour` and the negation in front of `Add`
  wrap to the `int64` range (`wrap64`); `Time.Add` splits the nanosecond
  duration with Go's truncating `int64` division and carries into the
  seconds (`goAdd`).
* The fallible collaborators are oracles: feed parsing is an
  `Except String Feed` argument, a message send outcome is `Option String`
  (`none` = success, `some e` = the error returned by the collaborator).
* Calls to `log.Printf` are recorded as tagged `LogLine` values, one
  constructor per call site (debug-only `debugInfof` tracing is not tracked).
* Calling a method on the nil `*tgbotapi.BotAPI` (never constructed in debug
  mode) dereferences a nil pointer; that run outcome is `RunResult.nilDeref`.
-/

/-- A Go `time.Time` instant: Unix seconds and the nanosecond component. -/
structure GoTime where
  sec : Int
  nsec : Nat
deriving DecidableEq

/-- `time.Time{}.Unix()`: the Unix seconds of the Go zero instant. -/
def goZeroUnixSec : Int := -62135596800

/-- `t.IsZero()`: `t` is the Go zero instant. -/
def goIsZero (t : GoTime) : Bool := t.sec == goZeroUnixSec && t.nsec == 0

/-- `t.Unix()`. -/
def goUnix (t : GoTime) : Int := t.sec

/-- The loop test of `getDatetime` (main.go:120): `d != nil && !d.IsZero()`. -/
def isValidDatetime : Option GoTime → Bool
  | none => false
  | some d => !goIsZero d

/-- main.go:118-125 — return the first non-nil, non-zero time in priority
order; if none qualifies, fall back to the last supplied time. -/
def getDatetime : List (Option GoTime) → Option GoTime
  | [] => none
  | d :: ds =>
    if isValidDatetime d then d
    else
      match ds with
      | [] => d
      | _ :: _ => getDatetime ds

/-- One parsed feed entry (the fields of `gofeed.Item` the program reads). -/
structure FeedItem where
  title : String
  link : String
  author : Option String
  publishedParsed : Option GoTime
  updatedParsed : Option GoTime
deriving DecidableEq

/-- One subscription descriptor (main.go:52-56). -/
structure RssInfo where
  title : String
  url : String
  fullContent : Bool
deriving DecidableEq

/-- A successfully parsed feed: its ordered entries. -/
structure Feed where
  items : List FeedItem
deriving DecidableEq

/-- `time.Date(t.Year(), t.Month(), t.Day(), t.Hour(), 0, 0, 0, UTC).Unix()`
for a time with Unix seconds `sec`: floor to the containing hour. -/
def truncToHourUnix (sec : Int) : Int := sec - sec % 3600

/-- Reduction of a Go signed-arithmetic result to the `int64` range
`[-2^63, 2^63)` (Go signed overflow wraps, discarding high bits). -/
def wrap64 (x : Int) : Int :=
  (x + 9223372036854775808) % 18446744073709551616 - 9223372036854775808

/-- `Time.Add(d)` for a duration of `d` nanoseconds (d an `int64` value):
Go splits `d` with truncating `int64` division into whole seconds and a
remainder of the sign of `d`, adds the remainder to the nanosecond field and
normalizes it into `[0, 1e9)` by carrying into the seconds. -/
def goAdd (t : GoTime) (d : Int) : GoTime :=
  let dsec := Int.tdiv d 1000000000
  let nsec : Int := (t.nsec : Int) + Int.tmod d 1000000000
  if 1000000000 ≤ nsec then ⟨t.sec + dsec + 1, (nsec - 1000000000).toNat⟩
  else if nsec < 0 then ⟨t.sec + dsec - 1, (nsec + 1000000000).toNat⟩
  else ⟨t.sec + dsec, nsec.toNat⟩

/-- main.go:130-133 — the `[start, end)` window: `start` is the hour floor of
`now.Add(-(time.Duration(startBy) * time.Hour))` — the `int64` nanosecond
duration wrapping at the product and at the negation — and `end` is the hour
floor of `now`. -/
def computeWindow (now : GoTime) (startBy : Int) : Int × Int :=
  let d := wrap64 (startBy * 3600000000000)
  let startTime := goAdd now (wrap64 (-d))
  (truncToHourUnix startTime.sec, truncToHourUnix now.sec)

/-- The spec's description of `truncateToHour`: keep the calendar hour
(`Int.ediv u 3600` is the UTC hour index) and zero everything below it. -/
def truncateToHourSpec (u : Int) : Int := 3600 * (u / 3600)

/-- One `log.Printf` call, tagged by call site. -/
inductive LogLine where
  | itemInfo (info : String)
  | parseUrlErr (url : String) (err : String)
  | sendTgErr (err : String)
  | sendBeatErr (err : String)
deriving DecidableEq

/-- main.go:143-144 — the inclusion test applied to each parsed entry:
the fallback timestamp is non-nil and its Unix value is in `[start, end)`. -/
def includeItem (start endT : Int) (item : FeedItem) : Bool :=
  match getDatetime [item.publishedParsed, item.updatedParsed] with
  | none => false
  | some t => decide (start ≤ goUnix t) && decide (goUnix t < endT)

/-- main.go:127-151 — `GetPostInfo`: compute the window; on parse failure log
the error with the URL and return no items; on success keep, in order, the
entries passing `includeItem`.  Returns the items and the emitted log lines. -/
def GetPostInfo (now : GoTime) (startBy : Int) (rss : RssInfo)
    (parseResult : Except String Feed) : List FeedItem × List LogLine :=
  let w := computeWindow now startBy
  match parseResult with
  | .error e => ([], [LogLine.parseUrlErr rss.url e])
  | .ok feed => (feed.items.filter (includeItem w.1 w.2), [])

/-- The items the worker pool forwards to the delivery queue for a list of
subscriptions with their parse outcomes (the multiset of deliveries; cross-feed
interleaving is nondeterministic and not modelled). -/
def runFetchAll (now : GoTime) (startBy : Int)
    (subs : List (RssInfo × Except String Feed)) : List FeedItem :=
  (subs.map (fun s => (GetPostInfo now startBy s.1 s.2).1)).flatten

/-- The constructed Telegram client. -/
structure BotAPI where
  token : String
deriving DecidableEq

/-- main.go:180-188 — the `onceLoader.Do` body: in live mode construct the
client from the token (`tgbotapi.NewBotAPI`); in debug mode leave it nil. -/
def initBot (debugMode : Bool) (token : String) : Option BotAPI :=
  if !debugMode then some ⟨token⟩ else none

/-- main.go:153-158 — empty for a nil author, otherwise the name plus a
newline. -/
def safeExtractName : Option String → String
  | none => ""
  | some n => n ++ "\n"

/-- main.go:160-167. -/
def makeDisplayMsg (item : FeedItem) : String :=
  safeExtractName item.author ++ item.title ++ "\n" ++ item.link

/-- main.go:192 — `fmt.Sprintln(feed.Title, feed.Link)`. -/
def itemLogInfo (item : FeedItem) : String :=
  item.title ++ " " ++ item.link ++ "\n"

/-- One attempted call into the messaging collaborator. -/
inductive SendEvent where
  | post (msg : String)
  | beat (msg : String)
deriving DecidableEq

/-- main.go:213 — the heartbeat text. -/
def beatMsg : String := "😆only beat package, no new msg"

/-- The observable state of one `PushPost` run: the counter `cnt`, the send
attempts that reached the collaborator, the log lines, and the number of
2-second pacing sleeps executed. -/
structure PushState where
  cnt : Nat
  sends : List SendEvent
  logs : List LogLine
  pauses : Nat
deriving DecidableEq

/-- The state at the top of `PushPost`'s loop (main.go:190). -/
def initPushState : PushState := ⟨0, [], [], 0⟩

/-- Outcome of a `PushPost` run: normal completion, or a nil-pointer
dereference from calling `Send` on the never-constructed client. -/
inductive RunResult where
  | ok (st : PushState)
  | nilDeref
deriving DecidableEq

/-- main.go:200-208 — the live-mode tail of one loop iteration: attempt the
item send (the oracle, indexed by the counter value at send time, yields
`some e` on failure, which is logged), increment `cnt`, and sleep 2 seconds
when `cnt` has reached a multiple of 10. -/
def liveStep (oracle : Nat → Option String) (feed : FeedItem)
    (st : PushState) : PushState :=
  let st1 := { st with sends := st.sends ++ [SendEvent.post (makeDisplayMsg feed)] }
  let st2 :=
    match oracle st1.cnt with
    | some e => { st1 with logs := st1.logs ++ [LogLine.sendTgErr e] }
    | none => st1
  let st3 := { st2 with cnt := st2.cnt + 1 }
  if st3.cnt % 10 == 0 then { st3 with pauses := st3.pauses + 1 } else st3

/-- main.go:192-193 — the unconditional `log.Printf` for a dequeued item. -/
def logItem (feed : FeedItem) (st : PushState) : PushState :=
  { st with logs := st.logs ++ [LogLine.itemInfo (itemLogInfo feed)] }

/-- main.go:191-209 — the `for feed := range tgChan` loop: log the item; in
debug mode `continue` (skipping send, counter and pacing); in live mode run
`liveStep`, dereferencing the client to send (nil dereference if it was never
constructed). -/
def pushLoop (debugMode : Bool) (bot : Option BotAPI)
    (oracle : Nat → Option String) : List FeedItem → PushState → RunResult
  | [], st => .ok st
  | feed :: rest, st =>
    if debugMode then pushLoop debugMode bot oracle rest (logItem feed st)
    else
      match bot with
      | none => .nilDeref
      | some _ => pushLoop debugMode bot oracle rest (liveStep oracle feed (logItem feed st))

/-- main.go:211-216 — after the queue drains: if `cnt == 0`, call
`bot.Send` with the heartbeat (nil dereference if the client was never
constructed); a heartbeat send failure is logged only. -/
def pushFinish (bot : Option BotAPI) (hb : Option String)
    (st : PushState) : RunResult :=
  if st.cnt == 0 then
    match bot with
    | none => .nilDeref
    | some _ =>
      let st1 := { st with sends := st.sends ++ [SendEvent.beat beatMsg] }
      match hb with
      | some e => .ok { st1 with logs := st1.logs ++ [LogLine.sendBeatErr e] }
      | none => .ok st1
  else .ok st

/-- main.go:176-217 — the whole delivery stage over the drained queue
contents: lazy client initialization, the item loop, then the heartbeat. -/
def PushPost (debugMode : Bool) (token : String)
    (oracle : Nat → Option String) (hb : Option String)
    (items : List FeedItem) : RunResult :=
  let bot := initBot debugMode token
  match pushLoop debugMode bot oracle items initPushState with
  | .ok st => pushFinish bot hb st
  | .nilDeref => .nilDeref

/-- The final counter value of a completed run. -/
def runCnt : RunResult → Option Nat
  | .ok st => some st.cnt
  | .nilDeref => none

/-- Number of heartbeat sends in a send trace. -/
def countBeatSends (l : List SendEvent) : Nat :=
  l.countP fun e => match e with | .beat _ => true | _ => false

/-- Number of per-item sends in a send trace. -/
def countPostSends (l : List SendEvent) : Nat :=
  l.countP fun e => match e with | .post _ => true | _ => false

/-- Heartbeat sends attempted by a run (a crashed run attempted none that
completed the call). -/
def heartbeatAttempts : RunResult → Nat
  | .ok st => countBeatSends st.sends
  | .nilDeref => 0

/-- Per-item sends attempted by a completed run. -/
def postAttempts : RunResult → Nat
  | .ok st => countPostSends st.sends
  | .nilDeref => 0

/-- Log lines of a completed run. -/
def logsOf : RunResult → List LogLine
  | .ok st => st.logs
  | .nilDeref => []

/-- Number of `send tg err` log lines. -/
def countTgErrLogs (l : List LogLine) : Nat :=
  l.countP fun x => match x with | .sendTgErr _ => true | _ => false

/-- Number of `send beat err` log lines. -/
def countBeatErrLogs (l : List LogLine) : Nat :=
  l.countP fun x => match x with | .sendBeatErr _ => true | _ => false

/-- How many of the `n` send attempts starting at counter value `c` the
oracle fails. -/
def failCount (oracle : Nat → Option String) : Nat → Nat → Nat
  | _, 0 => 0
  | c, n + 1 => (if (oracle c).isSome then 1 else 0) + failCount oracle (c + 1) n

/-! ## Concrete sample inputs used in counterexamples and witnesses -/

/-- A feed item with no author and no timestamps. -/
def sampleItem : FeedItem := ⟨"t", "l", none, none, none⟩

/-- The Go zero instant as a `GoTime`. -/
def zeroGoTime : GoTime := ⟨goZeroUnixSec, 0⟩

/-- An entry whose only timestamp is the zero-valued sentinel. -/
def sentinelItem : FeedItem := ⟨"s", "l", none, none, some zeroGoTime⟩

/-- A clock value one hour after the Go zero instant. -/
def ancientNow : GoTime := ⟨goZeroUnixSec + 3600, 0⟩

/-- A subscription descriptor. -/
def someRss : RssInfo := ⟨"r", "http://r", false⟩

/-- A clock value with nonzero sub-hour components. -/
def sampleNow : GoTime := ⟨7300, 5⟩

/-- The clock for the two-subscription scenario: hour 100 sharp. -/
def scenarioNow : GoTime := ⟨360000, 0⟩

/-- Failing subscription of the two-subscription scenario. -/
def rssA : RssInfo := ⟨"A", "http://a", false⟩

/-- Succeeding subscription of the two-subscription scenario. -/
def rssB : RssInfo := ⟨"B", "http://b", false⟩

/-- First qualifying entry of feed B (published at the window start). -/
def qItem1 : FeedItem := ⟨"q1", "lnk1", none, some ⟨349200, 0⟩, none⟩

/-- Second qualifying entry of feed B (published just before the window end). -/
def qItem2 : FeedItem := ⟨"q2", "lnk2", some "au", some ⟨359999, 0⟩, none⟩

/-- Feed B: exactly two qualifying entries. -/
def feedB2 : Feed := ⟨[qItem1, qItem2]⟩

/-- A nonempty parsed feed. -/
def sampleFeed : Feed := ⟨[qItem1]⟩

/-- An entry published at the Unix epoch (a valid, non-zero instant). -/
def epochItem : FeedItem := ⟨"e", "el", none, some ⟨0, 0⟩, none⟩

/-- A feed holding only `epochItem`. -/
def epochFeed : Feed := ⟨[epochItem]⟩

/-! ## Lemmas about the delivery stage -/

theorem countPostSends_nil : countPostSends [] = 0 := rfl

theorem countBeatSends_nil : countBeatSends [] = 0 := rfl

theorem countTgErrLogs_nil : countTgErrLogs [] = 0 := rfl

theorem countBeatErrLogs_nil : countBeatErrLogs [] = 0 := rfl

theorem countPostSends_append (l1 l2 : List SendEvent) :
    countPostSends (l1 ++ l2) = countPostSends l1 + countPostSends l2 := by
  simp [countPostSends, List.countP_append]

theorem countBeatSends_append (l1 l2 : List SendEvent) :
    countBeatSends (l1 ++ l2) = countBeatSends l1 + countBeatSends l2 := by
  simp [countBeatSends, List.countP_append]

theorem countTgErrLogs_append (l1 l2 : List LogLine) :
    countTgErrLogs (l1 ++ l2) = countTgErrLogs l1 + countTgErrLogs l2 := by
  simp [countTgErrLogs, List.countP_append]

theorem countBeatErrLogs_append (l1 l2 : List LogLine) :
    countBeatErrLogs (l1 ++ l2) = countBeatErrLogs l1 + countBeatErrLogs l2 := by
  simp [countBeatErrLogs, List.countP_append]

/-- In debug mode the loop only logs: counter, sends and pacing state are
untouched. -/
theorem pushLoop_debug_eq (bot : Option BotAPI) (oracle : Nat → Option String) :
    ∀ (items : List FeedItem) (st : PushState),
    pushLoop true bot oracle items st =
      RunResult.ok ⟨st.cnt, st.sends,
        st.logs ++ items.map (fun f => LogLine.itemInfo (itemLogInfo f)), st.pauses⟩ := by
  intro items
  induction items with
  | nil => intro st; simp [pushLoop]
  | cons f rest ih =>
    intro st
    simp only [pushLoop, if_true, List.map_cons]
    rw [ih]
    simp [logItem]

/-- What one live iteration (item log plus `liveStep`) does to the counter,
the send trace and the error-log counts. -/
theorem liveLogStep_spec (oracle : Nat → Option String) (f : FeedItem) (st : PushState) :
    (liveStep oracle f (logItem f st)).cnt = st.cnt + 1
    ∧ countPostSends (liveStep oracle f (logItem f st)).sends = countPostSends st.sends + 1
    ∧ countBeatSends (liveStep oracle f (logItem f st)).sends = countBeatSends st.sends
    ∧ countTgErrLogs (liveStep oracle f (logItem f st)).logs =
        countTgErrLogs st.logs + (if (oracle st.cnt).isSome then 1 else 0)
    ∧ countBeatErrLogs (liveStep oracle f (logItem f st)).logs = countBeatErrLogs st.logs := by
  unfold liveStep logItem
  cases h : oracle st.cnt <;>
    simp only [h] <;>
    split <;>
    simp [countPostSends_append, countBeatSends_append, countTgErrLogs_append,
      countBeatErrLogs_append, countPostSends, countBeatSends, countTgErrLogs,
      countBeatErrLogs]

/-- A live run of the loop completes normally and performs one counter
increment and one send attempt per item, failures being logged. -/
theorem pushLoop_live_spec (b : BotAPI) (oracle : Nat → Option String) :
    ∀ (items : List FeedItem) (st : PushState),
    ∃ stF, pushLoop false (some b) oracle items st = RunResult.ok stF
      ∧ stF.cnt = st.cnt + items.length
      ∧ countPostSends stF.sends = countPostSends st.sends + items.length
      ∧ countBeatSends stF.sends = countBeatSends st.sends
      ∧ countTgErrLogs stF.logs = countTgErrLogs st.logs + failCount oracle st.cnt items.length
      ∧ countBeatErrLogs stF.logs = countBeatErrLogs st.logs := by
  intro items
  induction items with
  | nil =>
    intro st
    exact ⟨st, by simp [pushLoop, failCount]⟩
  | cons f rest ih =>
    intro st
    obtain ⟨stF, hrun, hcnt, hpost, hbeat, htg, hbe⟩ := ih (liveStep oracle f (logItem f st))
    obtain ⟨s1, s2, s3, s4, s5⟩ := liveLogStep_spec oracle f st
    refine ⟨stF, by simpa [pushLoop] using hrun, ?_, ?_, ?_, ?_, ?_⟩
    · rw [hcnt, s1, List.length_cons]; omega
    · rw [hpost, s2, List.length_cons]; omega
    · rw [hbeat, s3]
    · rw [htg, s4, s1, List.length_cons]
      simp only [failCount]
      omega
    · rw [hbe, s5]

/-- What the end-of-queue heartbeat step does in live mode. -/
theorem pushFinish_spec (b : BotAPI) (hb : Option String) (st : PushState) :
    ∃ stF, pushFinish (some b) hb st = RunResult.ok stF
      ∧ stF.cnt = st.cnt
      ∧ countPostSends stF.sends = countPostSends st.sends
      ∧ countBeatSends stF.sends = countBeatSends st.sends + (if st.cnt = 0 then 1 else 0)
      ∧ countTgErrLogs stF.logs = countTgErrLogs st.logs
      ∧ countBeatErrLogs stF.logs =
          countBeatErrLogs st.logs + (if st.cnt = 0 ∧ hb.isSome then 1 else 0) := by
  unfold pushFinish
  by_cases h0 : st.cnt = 0
  · cases hb with
    | none =>
      refine ⟨{ st with sends := st.sends ++ [SendEvent.beat beatMsg] },
        ?_, ?_, ?_, ?_, ?_, ?_⟩ <;>
        simp [h0, countPostSends_append, countBeatSends_append, countTgErrLogs_append,
          countBeatErrLogs_append, countPostSends, countBeatSends, countTgErrLogs,
          countBeatErrLogs]
    | some e =>
      refine ⟨{ st with sends := st.sends ++ [SendEvent.beat beatMsg], logs := st.logs ++ [LogLine.sendBeatErr e] },
        ?_, ?_, ?_, ?_, ?_, ?_⟩ <;>
        simp [h0, countPostSends_append, countBeatSends_append, countTgErrLogs_append,
          countBeatErrLogs_append, countPostSends, countBeatSends, countTgErrLogs,
          countBeatErrLogs]
  · exact ⟨st, by simp [h0, beq_iff_eq], rfl, rfl, by simp [h0], rfl, by simp [h0]⟩

/-- A full live `PushPost` run: one increment and one send per item, a
heartbeat exactly when the counter drained at zero, heartbeat failure logged. -/
theorem PushPost_live_spec (token : String) (oracle : Nat → Option String)
    (hb : Option String) (items : List FeedItem) :
    ∃ stF, PushPost false token oracle hb items = RunResult.ok stF
      ∧ stF.cnt = items.length
      ∧ countPostSends stF.sends = items.length
      ∧ countBeatSends stF.sends = (if items.length = 0 then 1 else 0)
      ∧ countTgErrLogs stF.logs = failCount oracle 0 items.length
      ∧ countBeatErrLogs stF.logs = (if items.length = 0 ∧ hb.isSome then 1 else 0) := by
  obtain ⟨stL, hrun, hcnt, hpost, hbeat, htg, hbe⟩ :=
    pushLoop_live_spec ⟨token⟩ oracle items initPushState
  have hcnt2 : stL.cnt = items.length := by simpa [initPushState] using hcnt
  have hpost2 : countPostSends stL.sends = items.length := by
    simpa [initPushState, countPostSends_nil] using hpost
  have hbeat2 : countBeatSends stL.sends = 0 := by
    simpa [initPushState, countBeatSends_nil] using hbeat
  have htg2 : countTgErrLogs stL.logs = failCount oracle 0 items.length := by
    simpa [initPushState, countTgErrLogs_nil] using htg
  have hbe2 : countBeatErrLogs stL.logs = 0 := by
    simpa [initPushState, countBeatErrLogs_nil] using hbe
  obtain ⟨stF, hfin, fcnt, fpost, fbeat, ftg, fbe⟩ := pushFinish_spec ⟨token⟩ hb stL
  refine ⟨stF, ?_, ?_, ?_, ?_, ?_, ?_⟩
  · show (match pushLoop false (initBot false token) oracle items initPushState with
      | .ok st => pushFinish (initBot false token) hb st
      | .nilDeref => .nilDeref) = RunResult.ok stF
    rw [show initBot false token = some ⟨token⟩ from rfl, hrun]
    exact hfin
  · rw [fcnt, hcnt2]
  · rw [fpost, hpost2]
  · rw [fbeat, hbeat2, hcnt2]; simp
  · rw [ftg, htg2]
  · rw [fbe, hbe2, hcnt2]; simp

/-! ## Lemmas about the time window -/

/-- `wrap64` is the identity on values already in the `int64` range. -/
theorem wrap64_eq_self (x : Int) (h1 : -9223372036854775808 ≤ x)
    (h2 : x < 9223372036854775808) : wrap64 x = x := by
  unfold wrap64
  omega

/-- For look-back magnitudes up to 2562047 hours the `int64` nanosecond
duration does not wrap, and the window is the plain hour-floored
`[now - h hours, now)` over the Unix seconds. -/
theorem computeWindow_no_wrap (now : GoTime) (h : Int)
    (hlo : -2562047 ≤ h) (hhi : h ≤ 2562047) (hn : now.nsec < 1000000000) :
    computeWindow now h =
      (truncToHourUnix (now.sec - h * 3600), truncToHourUnix now.sec) := by
  have hp : wrap64 (h * 3600000000000) = h * 3600000000000 :=
    wrap64_eq_self _ (by omega) (by omega)
  have hq : wrap64 (-(h * 3600000000000)) = -(h * 3600000000000) :=
    wrap64_eq_self _ (by omega) (by omega)
  have hprod : -(h * 3600000000000) = -(h * 3600) * 1000000000 := by ring
  have hAdd : goAdd now (-(h * 3600000000000)) = ⟨now.sec - h * 3600, now.nsec⟩ := by
    have hge : ¬(1000000000 ≤ (now.nsec : Int) + 0) := by omega
    have hlt : ¬((now.nsec : Int) + 0 < 0) := by omega
    simp only [goAdd]
    rw [hprod, Int.mul_tdiv_cancel _ (by norm_num), Int.mul_tmod_left]
    rw [if_neg hge, if_neg hlt]
    simp only [GoTime.mk.injEq]
    exact ⟨by omega, by omega⟩
  simp only [computeWindow]
  rw [hp, hq, hAdd]

/-! ## Claim theorems -/

/-- C1: the claim says that with the debug flag set no send call at all
reaches the messaging collaborator, heartbeat included.  The code violates
this: in debug mode the client is never constructed, the counter stays 0, and
the unguarded heartbeat branch still calls `Send` — on the nil client.
Evaluating the model at the failing input (debug mode, empty queue) shows the
run reaching the heartbeat `Send` on the uninitialized client. -/
theorem C1_debug_heartbeat_send_reached :
    PushPost true "token" (fun _ => none) none [] = RunResult.nilDeref ∧
    initBot true "token" = none := ⟨rfl, rfl⟩

/-- C3: in debug mode the one-time initialization leaves the client nil, the
counter is 0 at queue drain (for every drained queue), and the heartbeat
branch dereferences the uninitialized client. -/
theorem C3_debug_nil_client_dereferenced (token : String) (oracle : Nat → Option String)
    (hb : Option String) (items : List FeedItem) :
    initBot true token = none ∧
    PushPost true token oracle hb items = RunResult.nilDeref := by
  refine ⟨rfl, ?_⟩
  show (match pushLoop true (initBot true token) oracle items initPushState with
    | .ok st => pushFinish (initBot true token) hb st
    | .nilDeref => .nilDeref) = RunResult.nilDeref
  rw [pushLoop_debug_eq]
  rfl

/-- C2 counterexample: for the one-item queue `[sampleItem]` a live run
drains with counter 1, while the dry-run execution never increments the
counter (it dereferences the nil client at the heartbeat and has no final
counter at all), so dry-run does not perform the same counter increments as
a live run. -/
theorem C2_counterexample :
    runCnt (PushPost true "token" (fun _ => none) none [sampleItem]) ≠
      runCnt (PushPost false "token" (fun _ => none) none [sampleItem]) := by
  decide

/-- C2 amended: in dry-run mode the delivery stage logs one line per dequeued
item exactly as a live run does, but performs zero counter increments, zero
sends and zero pacing pauses (the counter therefore drains at 0), whereas a
live run drains with the counter equal to the number of items. -/
theorem C2_amended_dry_run_skips_counting_and_pacing (token : String)
    (oracle : Nat → Option String) (hb : Option String) (items : List FeedItem) :
    pushLoop true (initBot true token) oracle items initPushState =
      RunResult.ok ⟨0, [], items.map (fun f => LogLine.itemInfo (itemLogInfo f)), 0⟩
    ∧ runCnt (PushPost false token oracle hb items) = some items.length := by
  constructor
  · rw [pushLoop_debug_eq]
    rfl
  · obtain ⟨stF, hrun, hcnt, _⟩ := PushPost_live_spec token oracle hb items
    rw [hrun]
    simp [runCnt, hcnt]

/-- C4: in a live run the queue drains normally; exactly one heartbeat send
is attempted iff the run counter is exactly 0 (equivalently, no items were
handled), no heartbeat is attempted when the counter is 1 or more, and a
heartbeat send failure only adds a log line (the run still completes). -/
theorem C4_heartbeat_iff_counter_zero (token : String) (oracle : Nat → Option String)
    (hb : Option String) (items : List FeedItem) :
    runCnt (PushPost false token oracle hb items) = some items.length
    ∧ heartbeatAttempts (PushPost false token oracle hb items) =
        (if items.length = 0 then 1 else 0)
    ∧ (heartbeatAttempts (PushPost false token oracle hb items) = 1 ↔
        runCnt (PushPost false token oracle hb items) = some 0)
    ∧ countBeatErrLogs (logsOf (PushPost false token oracle hb items)) =
        (if items.length = 0 ∧ hb.isSome then 1 else 0) := by
  obtain ⟨stF, hrun, hcnt, hpost, hbeat, htg, hbe⟩ := PushPost_live_spec token oracle hb items
  rw [hrun]
  refine ⟨by simp [runCnt, hcnt], by simp [heartbeatAttempts, hbeat], ?_, by simp [logsOf, hbe]⟩
  simp only [heartbeatAttempts, runCnt, hbeat, hcnt, Option.some_inj]
  by_cases h0 : items.length = 0 <;> simp [h0]

/-- C6: in a live run the counter is incremented exactly once per dequeued
item whatever the send outcomes are, exactly one item send is attempted per
item (no retries), each failed send produces one error log line, and the
stage processes the whole queue (it completes normally). -/
theorem C6_counter_and_error_handling (token : String) (oracle : Nat → Option String)
    (hb : Option String) (items : List FeedItem) :
    runCnt (PushPost false token oracle hb items) = some items.length
    ∧ postAttempts (PushPost false token oracle hb items) = items.length
    ∧ countTgErrLogs (logsOf (PushPost false token oracle hb items)) =
        failCount oracle 0 items.length := by
  obtain ⟨stF, hrun, hcnt, hpost, hbeat, htg, hbe⟩ := PushPost_live_spec token oracle hb items
  rw [hrun]
  exact ⟨by simp [runCnt, hcnt], by simp [postAttempts, hpost], by simp [logsOf, htg]⟩

/-- C5 counterexample: the inclusion check never tests for a zero-valued
timestamp.  `sentinelItem` has no published time and a zero-valued updated
time; the fallback yields the zero instant, yet for the window computed from
`ancientNow` with 1 hour of look-back the entry is included, contradicting
the claim that inclusion requires a non-zero effective timestamp. -/
theorem C5_counterexample :
    (GetPostInfo ancientNow 1 someRss (Except.ok ⟨[sentinelItem]⟩)).1 = [sentinelItem]
    ∧ getDatetime [sentinelItem.publishedParsed, sentinelItem.updatedParsed] =
        some zeroGoTime
    ∧ goIsZero zeroGoTime = true := by
  decide

/-- C5 amended: an entry is included in the fetch result iff its effective
timestamp (priority fallback over published then updated) is non-null and its
Unix value satisfies `start ≤ t < end`; no non-zero check is applied at
inclusion, so a zero-valued fallback timestamp is kept whenever it happens to
lie inside the window. -/
theorem C5_amended_inclusion_iff (now : GoTime) (startBy : Int) (rss : RssInfo)
    (feed : Feed) (item : FeedItem) :
    item ∈ (GetPostInfo now startBy rss (Except.ok feed)).1 ↔
      item ∈ feed.items ∧
        ∃ t, getDatetime [item.publishedParsed, item.updatedParsed] = some t
          ∧ (computeWindow now startBy).1 ≤ goUnix t
          ∧ goUnix t < (computeWindow now startBy).2 := by
  have key : includeItem (computeWindow now startBy).1 (computeWindow now startBy).2 item = true ↔
      ∃ t, getDatetime [item.publishedParsed, item.updatedParsed] = some t
        ∧ (computeWindow now startBy).1 ≤ goUnix t
        ∧ goUnix t < (computeWindow now startBy).2 := by
    unfold includeItem
    cases hd : getDatetime [item.publishedParsed, item.updatedParsed] with
    | none => simp
    | some t => simp
  simp only [GetPostInfo]
  rw [List.mem_filter, key]

/-- C7 counterexample: at `h = 2562048` the `int64` product
`Duration(h) * Hour` wraps to about minus 292 years, so `Add` of its negation
shifts `now` into the future and the code's `start` is not
`truncateToHour(now - h hours)`, refuting the claim's unrestricted
quantification over `h ≥ 0`. -/
theorem C7_counterexample :
    (0 : Int) ≤ 2562048 ∧
    (computeWindow sampleNow 2562048).1 ≠
      truncateToHourSpec (goUnix sampleNow - 2562048 * 3600) := by
  decide

/-- C7 amended: for every look-back `0 ≤ h ≤ 2562047` — the range in which
`h` hours fits the `int64` nanosecond `Duration` — and a valid nanosecond
field, the computed window is `start = truncateToHour(now - h hours)` and
`end = truncateToHour(now)`, and both bounds have their sub-hour components
zeroed while the calendar hour (the UTC hour index) is preserved. -/
theorem C7_window_formula (now : GoTime) (h : Int) (hh : 0 ≤ h)
    (hmax : h ≤ 2562047) (hn : now.nsec < 1000000000) :
    (computeWindow now h).1 = truncateToHourSpec (goUnix now - h * 3600)
    ∧ (computeWindow now h).2 = truncateToHourSpec (goUnix now)
    ∧ (computeWindow now h).1 % 3600 = 0
    ∧ (computeWindow now h).2 % 3600 = 0
    ∧ (computeWindow now h).1 / 3600 = (goUnix now - h * 3600) / 3600
    ∧ (computeWindow now h).2 / 3600 = goUnix now / 3600 := by
  rw [computeWindow_no_wrap now h (by omega) hmax hn]
  unfold truncToHourUnix truncateToHourSpec goUnix
  dsimp only
  refine ⟨?_, ?_, ?_, ?_, ?_, ?_⟩ <;> omega

/-- Witness for C7 at `now = sampleNow`, `h = 3`. -/
theorem C7_window_formula_witness :
    ((0 : Int) ≤ 3 ∧ (3 : Int) ≤ 2562047 ∧ sampleNow.nsec < 1000000000) ∧
    ((computeWindow sampleNow 3).1 = truncateToHourSpec (goUnix sampleNow - 3 * 3600)
     ∧ (computeWindow sampleNow 3).2 = truncateToHourSpec (goUnix sampleNow)
     ∧ (computeWindow sampleNow 3).1 % 3600 = 0
     ∧ (computeWindow sampleNow 3).2 % 3600 = 0
     ∧ (computeWindow sampleNow 3).1 / 3600 = (goUnix sampleNow - 3 * 3600) / 3600
     ∧ (computeWindow sampleNow 3).2 / 3600 = goUnix sampleNow / 3600) :=
  ⟨by decide, C7_window_formula sampleNow 3 (by decide) (by decide) (by decide)⟩

/-- C8 counterexample: at `h = -2562048` the `int64` product wraps to about
plus 292 years, its negation shifts `now` about 292 years into the past, so
`start < end` and an entry published at the Unix epoch is fetched — refuting
the claim's unrestricted quantification over `h ≤ 0`. -/
theorem C8_counterexample :
    (-2562048 : Int) ≤ 0
    ∧ (computeWindow sampleNow (-2562048)).1 < (computeWindow sampleNow (-2562048)).2
    ∧ (GetPostInfo sampleNow (-2562048) someRss (Except.ok epochFeed)).1 = [epochItem] := by
  decide

/-- C8 amended: for every look-back `-2562047 ≤ h ≤ 0` — non-positive values
whose hour duration still fits the `int64` nanosecond `Duration` — and a
valid nanosecond field, the window computation still succeeds and yields
`start ≥ end`, no timestamp can lie in `[start, end)`, and the fetch of any
successfully parsed feed returns no items. -/
theorem C8_nonpositive_lookback_degrades (now : GoTime) (h t : Int) (rss : RssInfo)
    (feed : Feed) (hle : h ≤ 0) (hwrap : -2562047 ≤ h) (hn : now.nsec < 1000000000) :
    (computeWindow now h).2 ≤ (computeWindow now h).1
    ∧ ¬((computeWindow now h).1 ≤ t ∧ t < (computeWindow now h).2)
    ∧ (GetPostInfo now h rss (Except.ok feed)).1 = [] := by
  have hw : computeWindow now h =
      (truncToHourUnix (now.sec - h * 3600), truncToHourUnix now.sec) :=
    computeWindow_no_wrap now h hwrap (by omega) hn
  have hse : (computeWindow now h).2 ≤ (computeWindow now h).1 := by
    rw [hw]
    unfold truncToHourUnix
    dsimp only
    omega
  refine ⟨hse, by omega, ?_⟩
  simp only [GetPostInfo]
  rw [List.filter_eq_nil_iff]
  intro a _
  unfold includeItem
  cases hd : getDatetime [a.publishedParsed, a.updatedParsed] with
  | none => simp
  | some t2 => simp only [Bool.and_eq_true, decide_eq_true_eq, not_and]; omega

/-- Witness for C8 at `now = sampleNow`, `h = -1`, `t = 0`, a nonempty feed. -/
theorem C8_nonpositive_lookback_degrades_witness :
    ((-1 : Int) ≤ 0 ∧ (-2562047 : Int) ≤ -1 ∧ sampleNow.nsec < 1000000000) ∧
    ((computeWindow sampleNow (-1)).2 ≤ (computeWindow sampleNow (-1)).1
     ∧ ¬((computeWindow sampleNow (-1)).1 ≤ 0 ∧ (0 : Int) < (computeWindow sampleNow (-1)).2)
     ∧ (GetPostInfo sampleNow (-1) someRss (Except.ok sampleFeed)).1 = []) :=
  ⟨by decide, C8_nonpositive_lookback_degrades sampleNow (-1) 0 someRss sampleFeed
    (by decide) (by decide) (by decide)⟩

/-- C9: a parse failure for one subscription yields no items and one error
log line carrying that subscription's URL, and leaves the other
subscriptions' contributions untouched: with A failing and B parsing
successfully the pipeline forwards exactly B's filtered items, and in the
concrete scenario (B holding 2 qualifying entries) exactly those 2 items. -/
theorem C9_parse_failure_isolated (now : GoTime) (startBy : Int) (A : RssInfo)
    (e : String) (B : RssInfo) (fB : Feed) :
    GetPostInfo now startBy A (Except.error e) = ([], [LogLine.parseUrlErr A.url e])
    ∧ runFetchAll now startBy [(A, Except.error e), (B, Except.ok fB)] =
        (GetPostInfo now startBy B (Except.ok fB)).1
    ∧ runFetchAll scenarioNow 3 [(rssA, Except.error "boom"), (rssB, Except.ok feedB2)] =
        [qItem1, qItem2]
    ∧ (runFetchAll scenarioNow 3 [(rssA, Except.error "boom"), (rssB, Except.ok feedB2)]).length
        = 2 := by
  refine ⟨rfl, ?_, by decide, by decide⟩
  simp [runFetchAll, GetPostInfo]

/-- C10: an entry with neither a published nor an updated timestamp has a nil
effective timestamp and is excluded for every window; and whenever the
fallback branch fires (no supplied timestamp is both non-nil and non-zero)
yet still yields a timestamp, that timestamp is the zero-valued sentinel. -/
theorem C10_sentinel_fallback (start endT : Int) (item : FeedItem)
    (p u : Option GoTime) (t : GoTime)
    (h1 : item.publishedParsed = none) (h2 : item.updatedParsed = none)
    (h3 : isValidDatetime p = false) (h4 : isValidDatetime u = false)
    (h5 : getDatetime [p, u] = some t) :
    (getDatetime [item.publishedParsed, item.updatedParsed] = none
      ∧ includeItem start endT item = false)
    ∧ goIsZero t = true := by
  constructor
  · constructor
    · rw [h1, h2]; rfl
    · unfold includeItem
      rw [h1, h2]
      rfl
  · have hu : getDatetime [p, u] = u := by
      simp [getDatetime, h3, h4]
    rw [hu] at h5
    rw [h5] at h4
    simpa [isValidDatetime] using h4

/-- Witness for C10: `sampleItem` has no timestamps at all; the fallback over
`[none, some zeroGoTime]` yields the zero-valued sentinel. -/
theorem C10_sentinel_fallback_witness :
    (sampleItem.publishedParsed = none ∧ sampleItem.updatedParsed = none
     ∧ isValidDatetime none = false ∧ isValidDatetime (some zeroGoTime) = false
     ∧ getDatetime [none, some zeroGoTime] = some zeroGoTime)
    ∧ ((getDatetime [sampleItem.publishedParsed, sampleItem.updatedParsed] = none
        ∧ includeItem 0 3600 sampleItem = false)
      ∧ goIsZero zeroGoTime = true) :=
  ⟨by decide, C10_sentinel_fallback 0 3600 sampleItem none (some zeroGoTime) zeroGoTime
    (by decide) (by decide) (by decide) (by decide) (by decide)⟩
